import Mathlib

/-!
Shallow embedding of the 2048 board engine from `src/game/board.py`
(together with `src/game/tile.py` and the layout constants from
`src/game/constants.py`).  Tiles are modelled as immutable records; the
Python dict `Board.tiles` (keyed by the string `f"{r}{c}"`) is modelled as a
partial map from `(row, col)` pairs to tiles.  In-place mutation of tile
objects (`set_animation`, `finalize_move`) becomes functional update of the
map at the tile's key.  All grid values are `Nat` (`0` = empty cell).
-/

namespace G2048

/-- `ROWS` from `src/game/constants.py`. -/
def ROWS : Nat := 4

/-- `COLS` from `src/game/constants.py`. -/
def COLS : Nat := 4

/-- `RECT_WIDTH = (WIDTH - OUTLINE_THICKNESS * (COLS + 1)) / COLS` with
`WIDTH = 800`, `OUTLINE_THICKNESS = 10` (`src/game/constants.py`). -/
def RECT_WIDTH : ℚ := (800 - 10 * (COLS + 1)) / COLS

/-- `RECT_HEIGHT = (GRID_HEIGHT - OUTLINE_THICKNESS * (ROWS + 1)) / ROWS` with
`GRID_HEIGHT = HEIGHT - HEADER_HEIGHT = 900 - 100` (`src/game/constants.py`). -/
def RECT_HEIGHT : ℚ := (800 - 10 * (ROWS + 1)) / ROWS

/-- `GRID_X[c] = OUTLINE_THICKNESS + c * (RECT_WIDTH + OUTLINE_THICKNESS)`. -/
def GRID_X (c : Nat) : ℚ := 10 + c * (RECT_WIDTH + 10)

/-- `GRID_Y[r] = GRID_TOP + OUTLINE_THICKNESS + r * (RECT_HEIGHT + OUTLINE_THICKNESS)`
with `GRID_TOP = HEADER_HEIGHT = 100`. -/
def GRID_Y (r : Nat) : ℚ := 100 + 10 + r * (RECT_HEIGHT + 10)

/-- The `Tile` dataclass from `src/game/tile.py`. -/
structure Tile where
  value : Nat
  row : Nat
  col : Nat
  x : ℚ
  y : ℚ
  animStartX : Option ℚ := none
  animStartY : Option ℚ := none
  animEndX : Option ℚ := none
  animEndY : Option ℚ := none

/-- `Tile(value, row, col)`: `__post_init__` calls `update_pos` (the default
`x = y = 0.0` is always hit for freshly constructed tiles, and `GRID_X`/`GRID_Y`
are never `0`), so `x`/`y` start at the cell's pixel coordinates. -/
def Tile.new (value row col : Nat) : Tile :=
  { value := value, row := row, col := col, x := GRID_X col, y := GRID_Y row }

/-- `Tile.set_animation(start_row, start_col, end_row, end_col)`. -/
def Tile.set_animation (t : Tile) (sr sc er ec : Nat) : Tile :=
  { t with
    animStartX := some (GRID_X sc), animStartY := some (GRID_Y sr),
    animEndX := some (GRID_X ec), animEndY := some (GRID_Y er),
    x := GRID_X sc, y := GRID_Y sr }

/-- The mutation performed on a surviving tile by `Board.finalize_move`:
`t.value = val; t.row = r; t.col = c; t.update_pos()`. -/
def Tile.commit (t : Tile) (val r c : Nat) : Tile :=
  { t with value := val, row := r, col := c, x := GRID_X c, y := GRID_Y r }

/-- The observable core of a tile: its `value`, `row` and `col` fields
(the fields `finalize_move` commits; animation data is excluded). -/
def Tile.core (t : Tile) : Nat × Nat × Nat := (t.value, t.row, t.col)

/-- The Python dict `Board.tiles` (and `dest_map`), keyed by `(row, col)`. -/
abbrev TileMap := Nat × Nat → Option Tile

/-- Dict assignment `d[key(p)] = t`. -/
def mapSet (m : TileMap) (p : Nat × Nat) (t : Tile) : TileMap :=
  fun q => if q = p then some t else m q

/-- Cell value used to build `old_grid` in `Board.move`: the tile's value
when present, `0` otherwise. -/
def valueAt (m : TileMap) (r c : Nat) : Nat :=
  match m (r, c) with
  | some t => t.value
  | none => 0

/-- A `ROWS × COLS` list-of-lists grid built cell by cell, mirroring the
`[[... for _ in range(COLS)] for _ in range(ROWS)]` construction plus the
per-cell assignments. -/
def buildGrid (f : Nat → Nat → Nat) : List (List Nat) :=
  (List.range ROWS).map (fun r => (List.range COLS).map (f r))

/-- The value grid of a tile map (the `old_grid` computed by `Board.move`). -/
def gridOf (m : TileMap) : List (List Nat) := buildGrid (valueAt m)

/-- `[grid[r][c] for c in range(COLS)]`. -/
def rowOf (g : List (List Nat)) (r : Nat) : List Nat :=
  (List.range COLS).map (fun c => (g.getD r []).getD c 0)

/-- `[grid[r][c] for r in range(ROWS)]`. -/
def colOf (g : List (List Nat)) (c : Nat) : List Nat :=
  (List.range ROWS).map (fun r => (g.getD r []).getD c 0)

/-- All `(r, c)` cells in iteration order `for r in range(ROWS): for c in range(COLS)`. -/
def allCells : List (Nat × Nat) :=
  (List.range ROWS).flatMap (fun r => (List.range COLS).map (fun c => (r, c)))

/-! ### Line collapsing (`process_line` inside `Board.move`) -/

/-- The non-empty tiles of a line in traversal order, with their keys:
`t = self.tiles.get(key); if t and t.value != 0: line_tiles.append(t)`. -/
def lineEntries (m : TileMap) (idxs : List (Nat × Nat)) :
    List ((Nat × Nat) × Tile) :=
  idxs.filterMap (fun p =>
    match m p with
    | some t => if t.value ≠ 0 then some (p, t) else none
    | none => none)

/-- The two-pointer merge loop of `process_line` (and of `_collapse_line`),
producing one group per emitted output tile: the output value, the surviving
entry (`cur`) and the consumed merge partner (`nxt`, when the two adjacent
values are equal; merged pairs advance by 2, singles by 1). -/
def collapseGroups :
    List ((Nat × Nat) × Tile) →
      List (Nat × ((Nat × Nat) × Tile) × List ((Nat × Nat) × Tile))
  | [] => []
  | [e] => [(e.2.value, e, [])]
  | e :: f :: rest =>
    if f.2.value = e.2.value then
      (e.2.value * 2, e, [f]) :: collapseGroups rest
    else
      (e.2.value, e, []) :: collapseGroups (f :: rest)

/-- The entries consumed by one output group (`cur` followed by `nxt` if any). -/
def groupEntries (g : Nat × ((Nat × Nat) × Tile) × List ((Nat × Nat) × Tile)) :
    List ((Nat × Nat) × Tile) := g.2.1 :: g.2.2

/-- `cur.set_animation(cur.row, cur.col, dest_r, dest_c)` applied to a keyed
entry, keeping its dict key. -/
def animEntry (d : Nat × Nat) (e : (Nat × Nat) × Tile) : (Nat × Nat) × Tile :=
  (e.1, e.2.set_animation e.2.row e.2.col d.1 d.2)

/-- Apply the per-group animations: group number `j` (the running
`target_idx`) animates its tiles toward `indices[target_idx]`. -/
def animateGroups (idxs : List (Nat × Nat)) :
    Nat → List (Nat × ((Nat × Nat) × Tile) × List ((Nat × Nat) × Tile)) →
      List (Nat × ((Nat × Nat) × Tile) × List ((Nat × Nat) × Tile))
  | _, [] => []
  | j, (v, e, es) :: gs =>
    let d := idxs.getD j (0, 0)
    (v, animEntry d e, es.map (animEntry d)) :: animateGroups idxs (j + 1) gs

/-- `while len(result_values) < len(indices): result_values.append(0)`. -/
def padLine (l : List Nat) (n : Nat) : List Nat :=
  l ++ List.replicate (n - l.length) 0

/-- Result of `process_line`: the padded `result_values`, the `result_tiles`
survivor sequence, and the tile map after the in-place `set_animation`
mutations of every tile of the line. -/
structure LineResult where
  values : List Nat
  tilesSeq : List Tile
  tiles : TileMap

/-- `process_line(indices)` from `Board.move`. -/
def process_line (m : TileMap) (idxs : List (Nat × Nat)) : LineResult :=
  let gs := animateGroups idxs 0 (collapseGroups (lineEntries m idxs))
  { values := padLine (gs.map (·.1)) idxs.length
    tilesSeq := gs.map (fun g => g.2.1.2)
    tiles := ((gs.flatMap groupEntries)).foldl (fun a e => mapSet a e.1 e.2) m }

/-- `dest_map[self._key(dr, dc)] = t` for each survivor, walking
`indices[write_idx]` with `write_idx = 0, 1, ...`. -/
def writeSurvivors (dm : TileMap) (idxs : List (Nat × Nat)) (ts : List Tile) :
    TileMap :=
  (idxs.zip ts).foldl (fun a pt => mapSet a pt.1 pt.2) dm

/-- Sequentially process the lines of a move, threading the (mutated) tile
map and `dest_map` and collecting each line's `result_values`. -/
def runLines (m : TileMap) (dm : TileMap) :
    List (List (Nat × Nat)) → TileMap × TileMap × List (List Nat)
  | [] => (m, dm, [])
  | idxs :: rest =>
    let lr := process_line m idxs
    let r := runLines lr.tiles (writeSurvivors dm idxs lr.tilesSeq) rest
    (r.1, r.2.1, lr.values :: r.2.2)

/-- `indices = [(r, c) for c in range(COLS)]`. -/
def leftIdx (r : Nat) : List (Nat × Nat) :=
  (List.range COLS).map (fun c => (r, c))

/-- `indices = [(r, c) for c in range(COLS - 1, -1, -1)]`. -/
def rightIdx (r : Nat) : List (Nat × Nat) :=
  (List.range COLS).reverse.map (fun c => (r, c))

/-- `indices = [(r, c) for r in range(ROWS)]`. -/
def upIdx (c : Nat) : List (Nat × Nat) :=
  (List.range ROWS).map (fun r => (r, c))

/-- `indices = [(r, c) for r in range(ROWS - 1, -1, -1)]`. -/
def downIdx (c : Nat) : List (Nat × Nat) :=
  (List.range ROWS).reverse.map (fun r => (r, c))

/-- The per-direction sequence of lines walked by `Board.move`
(rows for left/right, columns for up/down); empty for any other string. -/
def dirLines (direction : String) : List (List (Nat × Nat)) :=
  if direction = "left" then (List.range ROWS).map leftIdx
  else if direction = "right" then (List.range ROWS).map rightIdx
  else if direction = "up" then (List.range COLS).map upIdx
  else if direction = "down" then (List.range COLS).map downIdx
  else []

/-- Placement of the collected `result_values` into `new_grid`:
left fills `new_grid[r][c] = values[c]`, right fills
`new_grid[r][COLS-1-i] = values[i]`, up fills `new_grid[r][c] = values[r]`,
down fills `new_grid[ROWS-1-i][c] = values[i]`; unwritten cells stay `0`. -/
def assembleGrid (direction : String) (vals : List (List Nat)) :
    List (List Nat) :=
  if direction = "left" then buildGrid (fun r c => (vals.getD r []).getD c 0)
  else if direction = "right" then
    buildGrid (fun r c => (vals.getD r []).getD (COLS - 1 - c) 0)
  else if direction = "up" then buildGrid (fun r c => (vals.getD c []).getD r 0)
  else if direction = "down" then
    buildGrid (fun r c => (vals.getD c []).getD (ROWS - 1 - r) 0)
  else buildGrid (fun _ _ => 0)

/-- The `changed` flag of `Board.move`: for left it compares each old row
against the line's `result_values`, for right each old row against the new
row, for up/down each old column against the new column. -/
def moveChanged (direction : String) (old new : List (List Nat))
    (vals : List (List Nat)) : Bool :=
  if direction = "left" then
    (List.range ROWS).any (fun r => decide (rowOf old r ≠ vals.getD r []))
  else if direction = "right" then
    (List.range ROWS).any (fun r => decide (rowOf old r ≠ rowOf new r))
  else if direction = "up" then
    (List.range COLS).any (fun c => decide (colOf old c ≠ colOf new c))
  else if direction = "down" then
    (List.range COLS).any (fun c => decide (colOf old c ≠ colOf new c))
  else false

/-- The `Board` class from `src/game/board.py`: the tile dict and the pending
state deferred to `finalize_move` (`_pending_new_grid`, `_pending_map`). -/
structure Board where
  tiles : TileMap
  pendingNewGrid : Option (List (List Nat))
  pendingMap : Option TileMap

/-- The `new_grid` computed by `Board.move(direction)` (before the `changed`
check): each line is collapsed by `process_line` and the values are placed
back according to the direction. -/
def Board.moveNewGrid (b : Board) (direction : String) : List (List Nat) :=
  assembleGrid direction (runLines b.tiles (fun _ => none) (dirLines direction)).2.2

/-- `Board.move(direction) -> bool`.  Applies per-tile animations, computes
`new_grid` and `dest_map`; if nothing changed it returns `False` leaving the
pending state as it was, otherwise it stores the pending grid and map and
returns `True`. -/
def Board.move (b : Board) (direction : String) : Board × Bool :=
  let oldGrid := gridOf b.tiles
  let res := runLines b.tiles (fun _ => none) (dirLines direction)
  let newGrid := assembleGrid direction res.2.2
  let changed := moveChanged direction oldGrid newGrid res.2.2
  if changed then
    ({ tiles := res.1, pendingNewGrid := some newGrid,
       pendingMap := some res.2.1 }, true)
  else
    ({ b with tiles := res.1 }, false)

/-- The tile committed at one non-zero cell of the pending grid: the
`dest_map` survivor updated in place, or the fallback fresh
`Tile(val, r, c)` when the entry is missing. -/
def commitTileFor (newGrid : List (List Nat)) (destMap : TileMap)
    (p : Nat × Nat) : Tile :=
  match destMap p with
  | none => Tile.new ((newGrid.getD p.1 []).getD p.2 0) p.1 p.2
  | some t => t.commit ((newGrid.getD p.1 []).getD p.2 0) p.1 p.2

/-- One iteration of the `finalize_move` loop body at cell `p`: skip empty
cells (`val == 0: continue`), otherwise store the committed tile in
`new_tiles`. -/
def commitCell (newGrid : List (List Nat)) (destMap : TileMap)
    (acc : TileMap) (p : Nat × Nat) : TileMap :=
  if (newGrid.getD p.1 []).getD p.2 0 = 0 then acc
  else mapSet acc p (commitTileFor newGrid destMap p)

/-- `Board.finalize_move()`: commit the pending grid.  For every non-zero
cell of the pending grid the mapped survivor is updated in place
(`t.value = val; t.row = r; t.col = c; t.update_pos()`), with a fallback
fresh `Tile(val, r, c)` when the `dest_map` entry is missing; the tile dict
is replaced wholesale and the pending state is cleared. -/
def Board.finalize_move (b : Board) : Board :=
  match b.pendingNewGrid, b.pendingMap with
  | some newGrid, some destMap =>
    { tiles := allCells.foldl (commitCell newGrid destMap) (fun _ => none),
      pendingNewGrid := none, pendingMap := none }
  | _, _ => b

/-! ### `_collapse_line` and `_apply_move_simple` -/

/-- The merge loop of `Board._collapse_line`: merge adjacent equal values,
advancing by 2 on a merge and by 1 otherwise. -/
def mergeValues : List Nat → List Nat
  | [] => []
  | [a] => [a]
  | a :: b :: rest =>
    if a = b then a * 2 :: mergeValues rest else a :: mergeValues (b :: rest)

/-- `Board._collapse_line(line)`: drop zeros, merge adjacent equal values,
pad with zeros back to the original length. -/
def collapse_line (line : List Nat) : List Nat :=
  let merged := mergeValues (line.filter (· ≠ 0))
  merged ++ List.replicate (line.length - merged.length) 0

/-- `Board._apply_move_simple(grid, direction)`: the value-level move used as
the reference implementation (lines extracted per direction, collapsed with
`_collapse_line`, written back; any other direction yields the zero grid). -/
def apply_move_simple (grid : List (List Nat)) (direction : String) :
    List (List Nat) :=
  if direction = "left" then
    buildGrid (fun r c => (collapse_line (rowOf grid r)).getD c 0)
  else if direction = "right" then
    buildGrid (fun r c => (collapse_line (rowOf grid r).reverse).getD (COLS - 1 - c) 0)
  else if direction = "up" then
    buildGrid (fun r c => (collapse_line (colOf grid c)).getD r 0)
  else if direction = "down" then
    buildGrid (fun r c => (collapse_line (colOf grid c).reverse).getD (ROWS - 1 - r) 0)
  else buildGrid (fun _ _ => 0)

/-! ### Game-over detection and spawning -/

/-- `len(self.tiles)`: the number of occupied cells. -/
def tileCount (m : TileMap) : Nat :=
  (allCells.filter (fun p => (m p).isSome)).length

/-- The neighbor scan of `Board.is_game_over`: some cell has a forward
neighbor (offsets `(0,1)` and `(1,0)`) with the same value. -/
def hasAdjEqual (m : TileMap) : Bool :=
  (List.range ROWS).any (fun r => (List.range COLS).any (fun c =>
    ([(0, 1), (1, 0)] : List (Nat × Nat)).any (fun d =>
      decide (r + d.1 < ROWS) && decide (c + d.2 < COLS) &&
        decide (valueAt m (r + d.1) (c + d.2) = valueAt m r c))))

/-- `Board.is_game_over()`: `False` while some cell is free, otherwise `True`
iff no forward neighbor pair shares a value. -/
def Board.is_game_over (b : Board) : Bool :=
  if tileCount b.tiles < ROWS * COLS then false
  else !(hasAdjEqual b.tiles)

/-- `empty = [(r, c) ... if key not in self.tiles]`. -/
def emptyCells (m : TileMap) : List (Nat × Nat) :=
  allCells.filter (fun p => (m p).isNone)

/-- `Board.spawn_random(value=None)`.  The random draws are surfaced as
parameters: `pick` selects the empty cell (`random.choice(empty)` becomes
index `pick % len(empty)`), `randVal` is the drawn `random.choice([2, 4])`.
`val = value or random.choice([2, 4])` follows Python truthiness: an absent
or zero `value` falls back to the random draw.  A full grid is a no-op. -/
def spawn_random (m : TileMap) (pick randVal : Nat) (value : Option Nat) :
    TileMap :=
  let empty := emptyCells m
  if empty.isEmpty then m
  else
    let p := empty.getD (pick % empty.length) (0, 0)
    let val :=
      match value with
      | some v => if v ≠ 0 then v else randVal
      | none => randVal
    mapSet m p (Tile.new val p.1 p.2)

/-! ### Sum of a grid, shared by the conservation statements -/

/-- The sum of all tile values of a value grid. -/
def gridSum (g : List (List Nat)) : Nat := (g.map (fun l => l.sum)).sum

/-- Pairwise disjointness of the cell sets of the lines of a move. -/
def LinesDisj (L : List (List (Nat × Nat))) : Prop :=
  L.Pairwise (fun a b => ∀ p, p ∈ a → p ∉ b)

/-! ### Spec-modelled score / undo layer

`src/main.py` and `src/game/renderer.py` read `board.score`,
`board.undo_available` and call `board.undo()` / `board.reset()`, but none of
these members is implemented in any source file of the repository
(`Board` in `src/game/board.py` has no score and no history).  The
definitions below are therefore modelled from the spec rather than from
source code. -/

/-- A tile map holding exactly the non-zero cells of a value grid, with a
fresh tile per cell. -/
def tilesFromGrid (g : List (List Nat)) : TileMap :=
  fun p =>
    let v := (g.getD p.1 []).getD p.2 0
    if v = 0 then none else some (Tile.new v p.1 p.2)

/-- A board at rest holding the given value grid. -/
def boardOfGrid (g : List (List Nat)) : Board :=
  { tiles := tilesFromGrid g, pendingNewGrid := none, pendingMap := none }

/-- Modelled from the spec: the merge-score of one collapsed line — "Score
delta for the whole move = sum of all merge results' values (the doubled
value, once per merge event, not per tile)" (§4.1, step 5) — computed by the
same two-pointer walk as `_collapse_line` on the zero-filtered line. -/
def mergeScore : List Nat → Nat
  | [] => 0
  | [_] => 0
  | a :: b :: rest =>
    if a = b then a * 2 + mergeScore rest else mergeScore (b :: rest)

/-- Modelled from the spec: the score delta of a whole move, summing the
merge-scores of the four lines of the direction. -/
def moveScoreDelta (m : TileMap) (direction : String) : Nat :=
  ((dirLines direction).map (fun idxs =>
    mergeScore ((idxs.map (fun p => valueAt m p.1 p.2)).filter (· ≠ 0)))).sum

/-- Modelled from the spec: the board together with the score counter and
the undo history of {grid, score} snapshots (§3 "History entry", §4.4),
which `src/main.py` uses but whose implementation is missing from the
source. -/
structure Game where
  board : Board
  score : Nat
  history : List (List (List Nat) × Nat)

/-- Modelled from the spec: the `undo_available` flag read by the UI. -/
def Game.undo_available (g : Game) : Bool := !g.history.isEmpty

/-- Modelled from the spec: a committed move as driven by the caller in
`src/main.py` (`board.move(direction)`; if it returned `True`:
`board.finalize_move()`), pushing the {grid, score} snapshot taken
immediately before the commit and adding the merge score of the move. -/
def Game.do_move (g : Game) (direction : String) : Game × Bool :=
  let res := g.board.move direction
  if res.2 then
    ({ board := res.1.finalize_move
     , score := g.score + moveScoreDelta g.board.tiles direction
     , history := (gridOf g.board.tiles, g.score) :: g.history }, true)
  else
    ({ g with board := res.1 }, false)

/-- Modelled from the spec: `undo() -> bool` restores the immediately
preceding {grid, score} snapshot and reports whether one existed;
with no history it is a no-op returning `false`. -/
def Game.undo (g : Game) : Game × Bool :=
  match g.history with
  | [] => (g, false)
  | (grid, sc) :: rest =>
    ({ board := boardOfGrid grid, score := sc, history := rest }, true)

/-! ### Concrete boards used by the witness theorems -/

/-- A board with a single `2` tile in the top-left corner. -/
def board1 : Board := boardOfGrid [[2,0,0,0],[0,0,0,0],[0,0,0,0],[0,0,0,0]]

/-- A board whose first row is `[2,2,0,0]`. -/
def board22 : Board := boardOfGrid [[2,2,0,0],[0,0,0,0],[0,0,0,0],[0,0,0,0]]

/-- A full board with no two adjacent equal values. -/
def boardFull : Board :=
  boardOfGrid [[2,4,2,4],[4,2,4,2],[2,4,2,4],[4,2,4,2]]

/-- The game state wrapping `board22` with score `0` and no history. -/
def game22 : Game := { board := board22, score := 0, history := [] }

/-! ## Basic list helpers -/

theorem getD_range_map {α : Type} (d : α) {i n : Nat} (f : Nat → α)
    (h : i < n) : ((List.range n).map f).getD i d = f i := by
  rw [List.getD_eq_getElem?_getD, List.getElem?_map, List.getElem?_range h]
  rfl

theorem length_eq_four {α : Type} {l : List α} (h : l.length = 4) :
    ∃ a b c d, l = [a, b, c, d] := by
  rcases l with _ | ⟨a, _ | ⟨b, _ | ⟨c, _ | ⟨d, _ | ⟨e, tl⟩⟩⟩⟩⟩ <;> simp at h
  exact ⟨a, b, c, d, rfl⟩

theorem map_range4_getD {l : List Nat} (h : l.length = 4) :
    (List.range 4).map (fun i => l.getD i 0) = l := by
  obtain ⟨a, b, c, d, rfl⟩ := length_eq_four h
  rfl

theorem forall_lt_four {P : Nat → Prop} :
    (∀ i, i < 4 → P i) ↔ P 0 ∧ P 1 ∧ P 2 ∧ P 3 := by
  constructor
  · intro h; exact ⟨h 0 (by omega), h 1 (by omega), h 2 (by omega), h 3 (by omega)⟩
  · rintro ⟨h0, h1, h2, h3⟩ i hi
    interval_cases i <;> assumption

/-! ## `mergeValues` / `collapse_line` facts -/

theorem mergeValues_sum (l : List Nat) : (mergeValues l).sum = l.sum := by
  induction l using mergeValues.induct with
  | case1 => rfl
  | case2 a => rfl
  | case3 b rest ih => simp [mergeValues, ih]; ring
  | case4 a b rest h ih => simp only [mergeValues, if_neg h, List.sum_cons, ih]

theorem mergeValues_length_le (l : List Nat) :
    (mergeValues l).length ≤ l.length := by
  induction l using mergeValues.induct with
  | case1 => simp [mergeValues]
  | case2 a => simp [mergeValues]
  | case3 b rest ih =>
    have h3 : mergeValues (b :: b :: rest) = b * 2 :: mergeValues rest := by
      simp [mergeValues]
    rw [h3]
    simp only [List.length_cons]
    omega
  | case4 a b rest h ih =>
    simp only [mergeValues, if_neg h, List.length_cons]
    simpa using Nat.succ_le_succ ih

theorem filter_ne_zero_sum (l : List Nat) : (l.filter (· ≠ 0)).sum = l.sum := by
  induction l with
  | nil => rfl
  | cons a tl ih =>
    rw [List.filter_cons]
    by_cases h : a = 0
    · simpa [h] using ih
    · simpa [h] using ih

theorem collapse_line_sum (l : List Nat) : (collapse_line l).sum = l.sum := by
  show (mergeValues (l.filter (· ≠ 0)) ++ List.replicate _ 0).sum = l.sum
  rw [List.sum_append, mergeValues_sum, filter_ne_zero_sum]
  simp

theorem collapse_line_length (l : List Nat) :
    (collapse_line l).length = l.length := by
  have h1 : (mergeValues (l.filter (· ≠ 0))).length ≤ l.length :=
    le_trans (mergeValues_length_le _) (List.length_filter_le _ _)
  simp only [collapse_line, List.length_append, List.length_replicate]
  omega

/-! ## `lineEntries` facts -/

theorem lineEntries_mem {m : TileMap} {idxs : List (Nat × Nat)}
    {e : (Nat × Nat) × Tile} (h : e ∈ lineEntries m idxs) :
    m e.1 = some e.2 ∧ e.2.value ≠ 0 ∧ e.1 ∈ idxs := by
  simp only [lineEntries, List.mem_filterMap] at h
  obtain ⟨p, hp, he⟩ := h
  split at he
  next t hm =>
    split at he
    next hv =>
      cases he
      exact ⟨hm, hv, hp⟩
    next => exact absurd he (by simp)
  next => exact absurd he (by simp)

theorem lineEntries_congr {m m' : TileMap} {idxs : List (Nat × Nat)}
    (h : ∀ p ∈ idxs, m p = m' p) :
    lineEntries m idxs = lineEntries m' idxs := by
  induction idxs with
  | nil => rfl
  | cons p tl ih =>
    simp only [lineEntries, List.filterMap_cons] at ih ⊢
    rw [h p (by simp), ih (fun q hq => h q (by simp [hq]))]

theorem lineEntries_length_le (m : TileMap) (idxs : List (Nat × Nat)) :
    (lineEntries m idxs).length ≤ idxs.length :=
  List.length_filterMap_le _ _

theorem lineEntries_values (m : TileMap) (idxs : List (Nat × Nat)) :
    (lineEntries m idxs).map (fun e => e.2.value) =
      (idxs.map (fun p => valueAt m p.1 p.2)).filter (· ≠ 0) := by
  induction idxs with
  | nil => rfl
  | cons p tl ih =>
    simp only [lineEntries, List.map_cons, List.filterMap_cons,
      List.filter_cons] at ih ⊢
    rcases hm : m p with _ | t
    · simpa [valueAt, Prod.mk.eta, hm] using ih
    · by_cases hv : t.value = 0
      · simpa [valueAt, Prod.mk.eta, hm, hv] using ih
      · simpa [valueAt, Prod.mk.eta, hm, hv] using ih

/-! ## `collapseGroups` facts -/

theorem collapseGroups_cons_eq {e f : (Nat × Nat) × Tile}
    {rest : List ((Nat × Nat) × Tile)} (h : f.2.value = e.2.value) :
    collapseGroups (e :: f :: rest) =
      (e.2.value * 2, e, [f]) :: collapseGroups rest := by
  simp [collapseGroups, h]

theorem collapseGroups_cons_ne {e f : (Nat × Nat) × Tile}
    {rest : List ((Nat × Nat) × Tile)} (h : ¬f.2.value = e.2.value) :
    collapseGroups (e :: f :: rest) =
      (e.2.value, e, []) :: collapseGroups (f :: rest) := by
  simp [collapseGroups, h]

theorem mergeValues_cons_eq {a b : Nat} {rest : List Nat} (h : a = b) :
    mergeValues (a :: b :: rest) = a * 2 :: mergeValues rest := by
  simp [mergeValues, h]

theorem mergeValues_cons_ne {a b : Nat} {rest : List Nat} (h : ¬a = b) :
    mergeValues (a :: b :: rest) = a :: mergeValues (b :: rest) := by
  simp [mergeValues, h]

theorem collapseGroups_flat (es : List ((Nat × Nat) × Tile)) :
    (collapseGroups es).flatMap groupEntries = es := by
  induction es using collapseGroups.induct with
  | case1 => rfl
  | case2 e => rfl
  | case3 e f rest h ih =>
    rw [collapseGroups_cons_eq h, List.flatMap_cons, ih]
    rfl
  | case4 e f rest h ih =>
    rw [collapseGroups_cons_ne h, List.flatMap_cons, ih]
    rfl

theorem collapseGroups_length_le (es : List ((Nat × Nat) × Tile)) :
    (collapseGroups es).length ≤ es.length := by
  induction es using collapseGroups.induct with
  | case1 => simp [collapseGroups]
  | case2 e => simp [collapseGroups]
  | case3 e f rest h ih =>
    rw [collapseGroups_cons_eq h]
    simp only [List.length_cons]
    omega
  | case4 e f rest h ih =>
    rw [collapseGroups_cons_ne h]
    simp only [List.length_cons] at ih ⊢
    omega

theorem collapseGroups_values (es : List ((Nat × Nat) × Tile)) :
    (collapseGroups es).map (·.1) =
      mergeValues (es.map (fun e => e.2.value)) := by
  induction es using collapseGroups.induct with
  | case1 => rfl
  | case2 e => rfl
  | case3 e f rest h ih =>
    rw [collapseGroups_cons_eq h, List.map_cons, ih, List.map_cons,
      List.map_cons, mergeValues_cons_eq h.symm]
  | case4 e f rest h ih =>
    rw [collapseGroups_cons_ne h, List.map_cons, ih]
    simp only [List.map_cons]
    rw [mergeValues_cons_ne (fun hv => h hv.symm)]

theorem collapseGroups_shape (es : List ((Nat × Nat) × Tile)) :
    ∀ g ∈ collapseGroups es,
      (g.2.2 = [] ∧ g.1 = g.2.1.2.value) ∨
        (∃ f, g.2.2 = [f] ∧ f.2.value = g.2.1.2.value ∧
          g.1 = g.2.1.2.value * 2) := by
  induction es using collapseGroups.induct with
  | case1 => intro g hg; simp [collapseGroups] at hg
  | case2 e =>
    intro g hg
    simp only [collapseGroups, List.mem_singleton] at hg
    subst hg
    exact Or.inl ⟨rfl, rfl⟩
  | case3 e f rest h ih =>
    intro g hg
    rw [collapseGroups_cons_eq h] at hg
    rcases List.mem_cons.mp hg with rfl | hg2
    · exact Or.inr ⟨f, rfl, h, rfl⟩
    · exact ih g hg2
  | case4 e f rest h ih =>
    intro g hg
    rw [collapseGroups_cons_ne h] at hg
    rcases List.mem_cons.mp hg with rfl | hg2
    · exact Or.inl ⟨rfl, rfl⟩
    · exact ih g hg2

/-! ## `animateGroups` facts -/

theorem core_set_animation (t : Tile) (sr sc er ec : Nat) :
    (t.set_animation sr sc er ec).core = t.core := rfl

theorem animateGroups_values (idxs : List (Nat × Nat)) (j : Nat)
    (gs : List (Nat × ((Nat × Nat) × Tile) × List ((Nat × Nat) × Tile))) :
    (animateGroups idxs j gs).map (·.1) = gs.map (·.1) := by
  induction gs generalizing j with
  | nil => rfl
  | cons g tl ih =>
    obtain ⟨v, e, es⟩ := g
    simp only [animateGroups, List.map_cons, ih]

theorem animateGroups_flat_mem (idxs : List (Nat × Nat)) (j : Nat)
    (gs : List (Nat × ((Nat × Nat) × Tile) × List ((Nat × Nat) × Tile)))
    (w : (Nat × Nat) × Tile)
    (hw : w ∈ (animateGroups idxs j gs).flatMap groupEntries) :
    ∃ e ∈ gs.flatMap groupEntries, w.1 = e.1 ∧ w.2.core = e.2.core := by
  induction gs generalizing j with
  | nil => simp [animateGroups] at hw
  | cons g tl ih =>
    obtain ⟨v, e, es⟩ := g
    simp only [animateGroups, List.flatMap_cons, List.mem_append,
      groupEntries] at hw
    simp only [List.flatMap_cons, List.mem_append, groupEntries]
    rcases hw with hw | hw
    · rcases List.mem_cons.mp hw with rfl | hw2
      · exact ⟨e, Or.inl (List.mem_cons_self _ _), rfl, rfl⟩
      · obtain ⟨e0, he0, rfl⟩ := List.mem_map.mp hw2
        exact ⟨e0, Or.inl (List.mem_cons_of_mem _ he0), rfl, rfl⟩
    · obtain ⟨e0, he0, hk, hc⟩ := ih (j + 1) hw
      exact ⟨e0, Or.inr he0, hk, hc⟩

/-! ## Folded dict updates -/

theorem foldl_mapSet_notMem (ws : List ((Nat × Nat) × Tile)) (m : TileMap)
    (p : Nat × Nat) (h : ∀ e ∈ ws, e.1 ≠ p) :
    (ws.foldl (fun a e => mapSet a e.1 e.2) m) p = m p := by
  induction ws generalizing m with
  | nil => rfl
  | cons w tl ih =>
    simp only [List.foldl_cons]
    rw [ih _ (fun e he => h e (List.mem_cons_of_mem _ he))]
    have hw : w.1 ≠ p := h w (List.mem_cons_self _ _)
    have hp : ¬(p = w.1) := fun hp => hw hp.symm
    simp [mapSet, hp]

theorem foldl_mapSet_core (ws : List ((Nat × Nat) × Tile)) (m : TileMap)
    (h : ∀ e ∈ ws, (m e.1).map Tile.core = some e.2.core) (p : Nat × Nat) :
    ((ws.foldl (fun a e => mapSet a e.1 e.2) m) p).map Tile.core =
      (m p).map Tile.core := by
  induction ws generalizing m with
  | nil => rfl
  | cons w tl ih =>
    simp only [List.foldl_cons]
    have hm1 : ∀ q, ((mapSet m w.1 w.2) q).map Tile.core = (m q).map Tile.core := by
      intro q
      by_cases hq : q = w.1
      · subst hq
        simp only [mapSet, if_pos rfl, Option.map_some]
        exact (h w (List.mem_cons_self _ _)).symm
      · simp [mapSet, hq]
    rw [ih (mapSet m w.1 w.2) ?hcond, hm1 p]
    case hcond =>
      intro e he
      rw [hm1 e.1]
      exact h e (List.mem_cons_of_mem _ he)

/-! ## `process_line` facts -/

theorem process_line_values (m : TileMap) (idxs : List (Nat × Nat)) :
    (process_line m idxs).values =
      collapse_line (idxs.map (fun p => valueAt m p.1 p.2)) := by
  show padLine ((animateGroups idxs 0 (collapseGroups (lineEntries m idxs))).map (·.1))
      idxs.length = _
  rw [animateGroups_values, collapseGroups_values, lineEntries_values]
  show _ = mergeValues ((idxs.map (fun p => valueAt m p.1 p.2)).filter (· ≠ 0)) ++
    List.replicate ((idxs.map (fun p => valueAt m p.1 p.2)).length -
      (mergeValues ((idxs.map (fun p => valueAt m p.1 p.2)).filter (· ≠ 0))).length) 0
  rw [padLine, List.length_map]

theorem process_line_values_length (m : TileMap) (idxs : List (Nat × Nat)) :
    (process_line m idxs).values.length = idxs.length := by
  rw [process_line_values, collapse_line_length, List.length_map]

theorem process_line_values_congr {m m' : TileMap} {idxs : List (Nat × Nat)}
    (h : ∀ p ∈ idxs, m p = m' p) :
    (process_line m idxs).values = (process_line m' idxs).values := by
  rw [process_line_values, process_line_values]
  have hmap : idxs.map (fun p => valueAt m p.1 p.2) =
      idxs.map (fun p => valueAt m' p.1 p.2) := by
    apply List.map_congr_left
    intro p hp
    simp only [valueAt, Prod.mk.eta, h p hp]
  rw [hmap]

theorem process_line_frame (m : TileMap) (idxs : List (Nat × Nat))
    (p : Nat × Nat) (hp : p ∉ idxs) :
    (process_line m idxs).tiles p = m p := by
  apply foldl_mapSet_notMem
  intro w hw hwp
  obtain ⟨e0, he0, hkey, _⟩ := animateGroups_flat_mem idxs 0 _ w hw
  rw [collapseGroups_flat] at he0
  exact hp (hwp ▸ hkey ▸ (lineEntries_mem he0).2.2)

theorem process_line_core (m : TileMap) (idxs : List (Nat × Nat))
    (p : Nat × Nat) :
    ((process_line m idxs).tiles p).map Tile.core = (m p).map Tile.core := by
  apply foldl_mapSet_core
  intro w hw
  obtain ⟨e0, he0, hkey, hcore⟩ := animateGroups_flat_mem idxs 0 _ w hw
  rw [collapseGroups_flat] at he0
  rw [hkey, (lineEntries_mem he0).1, hcore]
  rfl

/-! ## `runLines` facts -/

theorem runLines_values {L : List (List (Nat × Nat))} {m m0 dm : TileMap}
    (hd : LinesDisj L) (hag : ∀ idxs ∈ L, ∀ p ∈ idxs, m p = m0 p) :
    (runLines m dm L).2.2 =
      L.map (fun idxs => (process_line m0 idxs).values) := by
  induction L generalizing m dm with
  | nil => rfl
  | cons idxs rest ih =>
    obtain ⟨hhead, htail⟩ := List.pairwise_cons.mp hd
    simp only [runLines, List.map_cons]
    congr 1
    · exact process_line_values_congr
        (fun p hp => hag idxs (List.mem_cons_self _ _) p hp)
    · apply ih htail
      intro idxs2 hidxs2 p hp
      have hnotin : p ∉ idxs := fun hin => hhead idxs2 hidxs2 p hin hp
      rw [process_line_frame m idxs p hnotin]
      exact hag idxs2 (List.mem_cons_of_mem _ hidxs2) p hp

theorem runLines_core (L : List (List (Nat × Nat))) (m dm : TileMap)
    (p : Nat × Nat) :
    (((runLines m dm L).1) p).map Tile.core = (m p).map Tile.core := by
  induction L generalizing m dm with
  | nil => rfl
  | cons idxs rest ih =>
    simp only [runLines]
    rw [ih, process_line_core]

/-! ## Direction-level facts -/

theorem dirLines_disj (d : String) : LinesDisj (dirLines d) := by
  unfold LinesDisj
  by_cases h1 : d = "left"
  · subst h1; decide
  by_cases h2 : d = "right"
  · subst h2; decide
  by_cases h3 : d = "up"
  · subst h3; decide
  by_cases h4 : d = "down"
  · subst h4; decide
  have hnil : dirLines d = [] := by simp [dirLines, h1, h2, h3, h4]
  rw [hnil]
  exact List.Pairwise.nil

theorem gridOf_expand (m : TileMap) :
    gridOf m =
      [[valueAt m 0 0, valueAt m 0 1, valueAt m 0 2, valueAt m 0 3],
       [valueAt m 1 0, valueAt m 1 1, valueAt m 1 2, valueAt m 1 3],
       [valueAt m 2 0, valueAt m 2 1, valueAt m 2 2, valueAt m 2 3],
       [valueAt m 3 0, valueAt m 3 1, valueAt m 3 2, valueAt m 3 3]] := rfl

theorem getD4_zero {α : Type} (a b c d e : α) : [a, b, c, d].getD 0 e = a := rfl

theorem getD4_one {α : Type} (a b c d e : α) : [a, b, c, d].getD 1 e = b := rfl

theorem getD4_two {α : Type} (a b c d e : α) : [a, b, c, d].getD 2 e = c := rfl

theorem getD4_three {α : Type} (a b c d e : α) : [a, b, c, d].getD 3 e = d := rfl

theorem assembleGrid_left_lit (a0 a1 a2 a3 b0 b1 b2 b3 c0 c1 c2 c3 d0 d1 d2 d3 : Nat) :
    assembleGrid "left"
        [[a0, a1, a2, a3], [b0, b1, b2, b3], [c0, c1, c2, c3], [d0, d1, d2, d3]] =
      [[a0, a1, a2, a3], [b0, b1, b2, b3], [c0, c1, c2, c3], [d0, d1, d2, d3]] := rfl

theorem assembleGrid_right_lit (a0 a1 a2 a3 b0 b1 b2 b3 c0 c1 c2 c3 d0 d1 d2 d3 : Nat) :
    assembleGrid "right"
        [[a0, a1, a2, a3], [b0, b1, b2, b3], [c0, c1, c2, c3], [d0, d1, d2, d3]] =
      [[a3, a2, a1, a0], [b3, b2, b1, b0], [c3, c2, c1, c0], [d3, d2, d1, d0]] := rfl

theorem assembleGrid_up_lit (a0 a1 a2 a3 b0 b1 b2 b3 c0 c1 c2 c3 d0 d1 d2 d3 : Nat) :
    assembleGrid "up"
        [[a0, a1, a2, a3], [b0, b1, b2, b3], [c0, c1, c2, c3], [d0, d1, d2, d3]] =
      [[a0, b0, c0, d0], [a1, b1, c1, d1], [a2, b2, c2, d2], [a3, b3, c3, d3]] := rfl

theorem assembleGrid_down_lit (a0 a1 a2 a3 b0 b1 b2 b3 c0 c1 c2 c3 d0 d1 d2 d3 : Nat) :
    assembleGrid "down"
        [[a0, a1, a2, a3], [b0, b1, b2, b3], [c0, c1, c2, c3], [d0, d1, d2, d3]] =
      [[a3, b3, c3, d3], [a2, b2, c2, d2], [a1, b1, c1, d1], [a0, b0, c0, d0]] := rfl

theorem moveChanged_left (old new vals : List (List Nat)) :
    moveChanged "left" old new vals =
      (([0, 1, 2, 3] : List Nat).any
        (fun r => decide (rowOf old r ≠ vals.getD r []))) := rfl

theorem moveChanged_right (old new vals : List (List Nat)) :
    moveChanged "right" old new vals =
      (([0, 1, 2, 3] : List Nat).any
        (fun r => decide (rowOf old r ≠ rowOf new r))) := rfl

theorem moveChanged_up (old new vals : List (List Nat)) :
    moveChanged "up" old new vals =
      (([0, 1, 2, 3] : List Nat).any
        (fun c => decide (colOf old c ≠ colOf new c))) := rfl

theorem moveChanged_down (old new vals : List (List Nat)) :
    moveChanged "down" old new vals =
      (([0, 1, 2, 3] : List Nat).any
        (fun c => decide (colOf old c ≠ colOf new c))) := rfl

theorem rowOf_lit_zero (A0 A1 A2 A3 : Nat) (R1 R2 R3 : List Nat) :
    rowOf [[A0, A1, A2, A3], R1, R2, R3] 0 = [A0, A1, A2, A3] := rfl

theorem rowOf_lit_one (A0 A1 A2 A3 : Nat) (R0 R2 R3 : List Nat) :
    rowOf [R0, [A0, A1, A2, A3], R2, R3] 1 = [A0, A1, A2, A3] := rfl

theorem rowOf_lit_two (A0 A1 A2 A3 : Nat) (R0 R1 R3 : List Nat) :
    rowOf [R0, R1, [A0, A1, A2, A3], R3] 2 = [A0, A1, A2, A3] := rfl

theorem rowOf_lit_three (A0 A1 A2 A3 : Nat) (R0 R1 R2 : List Nat) :
    rowOf [R0, R1, R2, [A0, A1, A2, A3]] 3 = [A0, A1, A2, A3] := rfl

theorem colOf_lit_zero (a0 a1 a2 a3 b0 b1 b2 b3 c0 c1 c2 c3 d0 d1 d2 d3 : Nat) :
    colOf [[a0, a1, a2, a3], [b0, b1, b2, b3], [c0, c1, c2, c3], [d0, d1, d2, d3]] 0 =
      [a0, b0, c0, d0] := rfl

theorem colOf_lit_one (a0 a1 a2 a3 b0 b1 b2 b3 c0 c1 c2 c3 d0 d1 d2 d3 : Nat) :
    colOf [[a0, a1, a2, a3], [b0, b1, b2, b3], [c0, c1, c2, c3], [d0, d1, d2, d3]] 1 =
      [a1, b1, c1, d1] := rfl

theorem colOf_lit_two (a0 a1 a2 a3 b0 b1 b2 b3 c0 c1 c2 c3 d0 d1 d2 d3 : Nat) :
    colOf [[a0, a1, a2, a3], [b0, b1, b2, b3], [c0, c1, c2, c3], [d0, d1, d2, d3]] 2 =
      [a2, b2, c2, d2] := rfl

theorem colOf_lit_three (a0 a1 a2 a3 b0 b1 b2 b3 c0 c1 c2 c3 d0 d1 d2 d3 : Nat) :
    colOf [[a0, a1, a2, a3], [b0, b1, b2, b3], [c0, c1, c2, c3], [d0, d1, d2, d3]] 3 =
      [a3, b3, c3, d3] := rfl

/-! ## `Board.move` unfolding helpers -/

theorem move_snd (b : Board) (d : String) :
    (b.move d).2 = moveChanged d (gridOf b.tiles)
      (assembleGrid d (runLines b.tiles (fun _ => none) (dirLines d)).2.2)
      (runLines b.tiles (fun _ => none) (dirLines d)).2.2 := by
  unfold Board.move
  dsimp only
  split
  next h => exact h.symm
  next h => exact (Bool.not_eq_true _).mp h |>.symm

theorem move_tiles_eq (b : Board) (d : String) :
    (b.move d).1.tiles = (runLines b.tiles (fun _ => none) (dirLines d)).1 := by
  unfold Board.move
  dsimp only
  split <;> rfl

theorem move_pending_true {b : Board} {d : String} (h : (b.move d).2 = true) :
    (b.move d).1.pendingNewGrid = some (b.moveNewGrid d) ∧
      (b.move d).1.pendingMap =
        some (runLines b.tiles (fun _ => none) (dirLines d)).2.1 := by
  unfold Board.move at h ⊢
  unfold Board.moveNewGrid
  dsimp only at h ⊢
  split at h
  next hc => rw [if_pos hc]; exact ⟨rfl, rfl⟩
  next hc => exact absurd h (by simp)

theorem move_pending_false {b : Board} {d : String} (h : (b.move d).2 = false) :
    (b.move d).1.pendingNewGrid = b.pendingNewGrid ∧
      (b.move d).1.pendingMap = b.pendingMap := by
  unfold Board.move at h ⊢
  dsimp only at h ⊢
  split at h
  next hc => exact absurd h (by simp)
  next hc => rw [if_neg (by simpa using hc)]; exact ⟨rfl, rfl⟩

theorem valueAt_eq_of_core {m m' : TileMap} (p : Nat × Nat)
    (h : (m p).map Tile.core = (m' p).map Tile.core) :
    valueAt m p.1 p.2 = valueAt m' p.1 p.2 := by
  have hv : ∀ (o : Option Tile),
      (match o with | some t => t.value | none => 0) =
        ((o.map Tile.core).map (fun c => c.1)).getD 0 := by
    intro o; cases o <;> rfl
  unfold valueAt
  rw [Prod.mk.eta, hv (m p), hv (m' p), h]

theorem move_grid_preserved (b : Board) (d : String) :
    gridOf (b.move d).1.tiles = gridOf b.tiles := by
  rw [move_tiles_eq]
  unfold gridOf buildGrid
  apply List.map_congr_left
  intro r _
  apply List.map_congr_left
  intro c _
  exact valueAt_eq_of_core (r, c) (runLines_core _ _ _ _)

/-! ## Claim C1 -/

set_option maxHeartbeats 1600000 in
/-- C1: for every direction in {left,right,up,down} and every board state,
`move(direction)` returns `true` iff the post-collapse grid differs from the
grid before the attempt, and when it returns `false` the grid contents of the
board are left unchanged. -/
theorem C1_move_true_iff_grid_changed (b : Board) (d : String)
    (hd : d ∈ (["left", "right", "up", "down"] : List String)) :
    ((b.move d).2 = true ↔ b.moveNewGrid d ≠ gridOf b.tiles) ∧
      ((b.move d).2 = false → gridOf (b.move d).1.tiles = gridOf b.tiles) := by
  refine ⟨?_, fun _ => move_grid_preserved b d⟩
  rw [move_snd]
  unfold Board.moveNewGrid
  simp only [List.mem_cons, List.not_mem_nil, or_false] at hd
  rcases hd with rfl | rfl | rfl | rfl
  · rw [runLines_values (dirLines_disj "left") (fun _ _ _ _ => rfl)]
    have hmap : (dirLines "left").map
        (fun idxs => (process_line b.tiles idxs).values) =
        [(process_line b.tiles (leftIdx 0)).values,
         (process_line b.tiles (leftIdx 1)).values,
         (process_line b.tiles (leftIdx 2)).values,
         (process_line b.tiles (leftIdx 3)).values] := rfl
    rw [hmap]
    obtain ⟨a0, a1, a2, a3, hV0⟩ := length_eq_four
      (by rw [process_line_values_length]; rfl :
        (process_line b.tiles (leftIdx 0)).values.length = 4)
    obtain ⟨b0, b1, b2, b3, hV1⟩ := length_eq_four
      (by rw [process_line_values_length]; rfl :
        (process_line b.tiles (leftIdx 1)).values.length = 4)
    obtain ⟨c0, c1, c2, c3, hV2⟩ := length_eq_four
      (by rw [process_line_values_length]; rfl :
        (process_line b.tiles (leftIdx 2)).values.length = 4)
    obtain ⟨d0, d1, d2, d3, hV3⟩ := length_eq_four
      (by rw [process_line_values_length]; rfl :
        (process_line b.tiles (leftIdx 3)).values.length = 4)
    rw [hV0, hV1, hV2, hV3, gridOf_expand, assembleGrid_left_lit]
    simp only [moveChanged_left, List.any_cons, List.any_nil,
      getD4_zero, getD4_one, getD4_two, getD4_three,
      rowOf_lit_zero, rowOf_lit_one, rowOf_lit_two, rowOf_lit_three,
      Bool.or_eq_true, decide_eq_true_eq, ne_eq, List.cons.injEq,
      and_true, not_and, Bool.false_eq_true, or_false]
    tauto
  · rw [runLines_values (dirLines_disj "right") (fun _ _ _ _ => rfl)]
    have hmap : (dirLines "right").map
        (fun idxs => (process_line b.tiles idxs).values) =
        [(process_line b.tiles (rightIdx 0)).values,
         (process_line b.tiles (rightIdx 1)).values,
         (process_line b.tiles (rightIdx 2)).values,
         (process_line b.tiles (rightIdx 3)).values] := rfl
    rw [hmap]
    obtain ⟨a0, a1, a2, a3, hV0⟩ := length_eq_four
      (by rw [process_line_values_length]; rfl :
        (process_line b.tiles (rightIdx 0)).values.length = 4)
    obtain ⟨b0, b1, b2, b3, hV1⟩ := length_eq_four
      (by rw [process_line_values_length]; rfl :
        (process_line b.tiles (rightIdx 1)).values.length = 4)
    obtain ⟨c0, c1, c2, c3, hV2⟩ := length_eq_four
      (by rw [process_line_values_length]; rfl :
        (process_line b.tiles (rightIdx 2)).values.length = 4)
    obtain ⟨d0, d1, d2, d3, hV3⟩ := length_eq_four
      (by rw [process_line_values_length]; rfl :
        (process_line b.tiles (rightIdx 3)).values.length = 4)
    rw [hV0, hV1, hV2, hV3, gridOf_expand, assembleGrid_right_lit]
    simp only [moveChanged_right, List.any_cons, List.any_nil,
      rowOf_lit_zero, rowOf_lit_one, rowOf_lit_two, rowOf_lit_three,
      Bool.or_eq_true, decide_eq_true_eq, ne_eq, List.cons.injEq,
      and_true, not_and, Bool.false_eq_true, or_false]
    tauto
  · rw [runLines_values (dirLines_disj "up") (fun _ _ _ _ => rfl)]
    have hmap : (dirLines "up").map
        (fun idxs => (process_line b.tiles idxs).values) =
        [(process_line b.tiles (upIdx 0)).values,
         (process_line b.tiles (upIdx 1)).values,
         (process_line b.tiles (upIdx 2)).values,
         (process_line b.tiles (upIdx 3)).values] := rfl
    rw [hmap]
    obtain ⟨a0, a1, a2, a3, hV0⟩ := length_eq_four
      (by rw [process_line_values_length]; rfl :
        (process_line b.tiles (upIdx 0)).values.length = 4)
    obtain ⟨b0, b1, b2, b3, hV1⟩ := length_eq_four
      (by rw [process_line_values_length]; rfl :
        (process_line b.tiles (upIdx 1)).values.length = 4)
    obtain ⟨c0, c1, c2, c3, hV2⟩ := length_eq_four
      (by rw [process_line_values_length]; rfl :
        (process_line b.tiles (upIdx 2)).values.length = 4)
    obtain ⟨d0, d1, d2, d3, hV3⟩ := length_eq_four
      (by rw [process_line_values_length]; rfl :
        (process_line b.tiles (upIdx 3)).values.length = 4)
    rw [hV0, hV1, hV2, hV3, gridOf_expand, assembleGrid_up_lit]
    simp only [moveChanged_up, List.any_cons, List.any_nil,
      colOf_lit_zero, colOf_lit_one, colOf_lit_two, colOf_lit_three,
      Bool.or_eq_true, decide_eq_true_eq, ne_eq, List.cons.injEq,
      and_true, not_and, Bool.false_eq_true, or_false]
    tauto
  · rw [runLines_values (dirLines_disj "down") (fun _ _ _ _ => rfl)]
    have hmap : (dirLines "down").map
        (fun idxs => (process_line b.tiles idxs).values) =
        [(process_line b.tiles (downIdx 0)).values,
         (process_line b.tiles (downIdx 1)).values,
         (process_line b.tiles (downIdx 2)).values,
         (process_line b.tiles (downIdx 3)).values] := rfl
    rw [hmap]
    obtain ⟨a0, a1, a2, a3, hV0⟩ := length_eq_four
      (by rw [process_line_values_length]; rfl :
        (process_line b.tiles (downIdx 0)).values.length = 4)
    obtain ⟨b0, b1, b2, b3, hV1⟩ := length_eq_four
      (by rw [process_line_values_length]; rfl :
        (process_line b.tiles (downIdx 1)).values.length = 4)
    obtain ⟨c0, c1, c2, c3, hV2⟩ := length_eq_four
      (by rw [process_line_values_length]; rfl :
        (process_line b.tiles (downIdx 2)).values.length = 4)
    obtain ⟨d0, d1, d2, d3, hV3⟩ := length_eq_four
      (by rw [process_line_values_length]; rfl :
        (process_line b.tiles (downIdx 3)).values.length = 4)
    rw [hV0, hV1, hV2, hV3, gridOf_expand, assembleGrid_down_lit]
    simp only [moveChanged_down, List.any_cons, List.any_nil,
      colOf_lit_zero, colOf_lit_one, colOf_lit_two, colOf_lit_three,
      Bool.or_eq_true, decide_eq_true_eq, ne_eq, List.cons.injEq,
      and_true, not_and, Bool.false_eq_true, or_false]
    tauto

/-! ## Refinement: the tile-based move agrees with `_apply_move_simple` -/

theorem apply_move_simple_left (g : List (List Nat)) :
    apply_move_simple g "left" =
      [[(collapse_line (rowOf g 0)).getD 0 0, (collapse_line (rowOf g 0)).getD 1 0,
        (collapse_line (rowOf g 0)).getD 2 0, (collapse_line (rowOf g 0)).getD 3 0],
       [(collapse_line (rowOf g 1)).getD 0 0, (collapse_line (rowOf g 1)).getD 1 0,
        (collapse_line (rowOf g 1)).getD 2 0, (collapse_line (rowOf g 1)).getD 3 0],
       [(collapse_line (rowOf g 2)).getD 0 0, (collapse_line (rowOf g 2)).getD 1 0,
        (collapse_line (rowOf g 2)).getD 2 0, (collapse_line (rowOf g 2)).getD 3 0],
       [(collapse_line (rowOf g 3)).getD 0 0, (collapse_line (rowOf g 3)).getD 1 0,
        (collapse_line (rowOf g 3)).getD 2 0, (collapse_line (rowOf g 3)).getD 3 0]] := rfl

theorem apply_move_simple_right (g : List (List Nat)) :
    apply_move_simple g "right" =
      [[(collapse_line (rowOf g 0).reverse).getD 3 0, (collapse_line (rowOf g 0).reverse).getD 2 0,
        (collapse_line (rowOf g 0).reverse).getD 1 0, (collapse_line (rowOf g 0).reverse).getD 0 0],
       [(collapse_line (rowOf g 1).reverse).getD 3 0, (collapse_line (rowOf g 1).reverse).getD 2 0,
        (collapse_line (rowOf g 1).reverse).getD 1 0, (collapse_line (rowOf g 1).reverse).getD 0 0],
       [(collapse_line (rowOf g 2).reverse).getD 3 0, (collapse_line (rowOf g 2).reverse).getD 2 0,
        (collapse_line (rowOf g 2).reverse).getD 1 0, (collapse_line (rowOf g 2).reverse).getD 0 0],
       [(collapse_line (rowOf g 3).reverse).getD 3 0, (collapse_line (rowOf g 3).reverse).getD 2 0,
        (collapse_line (rowOf g 3).reverse).getD 1 0, (collapse_line (rowOf g 3).reverse).getD 0 0]] := rfl

theorem apply_move_simple_up (g : List (List Nat)) :
    apply_move_simple g "up" =
      [[(collapse_line (colOf g 0)).getD 0 0, (collapse_line (colOf g 1)).getD 0 0,
        (collapse_line (colOf g 2)).getD 0 0, (collapse_line (colOf g 3)).getD 0 0],
       [(collapse_line (colOf g 0)).getD 1 0, (collapse_line (colOf g 1)).getD 1 0,
        (collapse_line (colOf g 2)).getD 1 0, (collapse_line (colOf g 3)).getD 1 0],
       [(collapse_line (colOf g 0)).getD 2 0, (collapse_line (colOf g 1)).getD 2 0,
        (collapse_line (colOf g 2)).getD 2 0, (collapse_line (colOf g 3)).getD 2 0],
       [(collapse_line (colOf g 0)).getD 3 0, (collapse_line (colOf g 1)).getD 3 0,
        (collapse_line (colOf g 2)).getD 3 0, (collapse_line (colOf g 3)).getD 3 0]] := rfl

theorem apply_move_simple_down (g : List (List Nat)) :
    apply_move_simple g "down" =
      [[(collapse_line (colOf g 0).reverse).getD 3 0, (collapse_line (colOf g 1).reverse).getD 3 0,
        (collapse_line (colOf g 2).reverse).getD 3 0, (collapse_line (colOf g 3).reverse).getD 3 0],
       [(collapse_line (colOf g 0).reverse).getD 2 0, (collapse_line (colOf g 1).reverse).getD 2 0,
        (collapse_line (colOf g 2).reverse).getD 2 0, (collapse_line (colOf g 3).reverse).getD 2 0],
       [(collapse_line (colOf g 0).reverse).getD 1 0, (collapse_line (colOf g 1).reverse).getD 1 0,
        (collapse_line (colOf g 2).reverse).getD 1 0, (collapse_line (colOf g 3).reverse).getD 1 0],
       [(collapse_line (colOf g 0).reverse).getD 0 0, (collapse_line (colOf g 1).reverse).getD 0 0,
        (collapse_line (colOf g 2).reverse).getD 0 0, (collapse_line (colOf g 3).reverse).getD 0 0]] := rfl

set_option maxHeartbeats 1600000 in
theorem moveNewGrid_eq_simple (b : Board) (d : String)
    (hd : d ∈ (["left", "right", "up", "down"] : List String)) :
    b.moveNewGrid d = apply_move_simple (gridOf b.tiles) d := by
  unfold Board.moveNewGrid
  simp only [List.mem_cons, List.not_mem_nil, or_false] at hd
  rcases hd with rfl | rfl | rfl | rfl
  · rw [runLines_values (dirLines_disj "left") (fun _ _ _ _ => rfl)]
    have hmap : (dirLines "left").map
        (fun idxs => (process_line b.tiles idxs).values) =
        [(process_line b.tiles (leftIdx 0)).values,
         (process_line b.tiles (leftIdx 1)).values,
         (process_line b.tiles (leftIdx 2)).values,
         (process_line b.tiles (leftIdx 3)).values] := rfl
    rw [hmap]
    have h0 : (process_line b.tiles (leftIdx 0)).values =
        collapse_line (rowOf (gridOf b.tiles) 0) := by rw [process_line_values]; rfl
    have h1 : (process_line b.tiles (leftIdx 1)).values =
        collapse_line (rowOf (gridOf b.tiles) 1) := by rw [process_line_values]; rfl
    have h2 : (process_line b.tiles (leftIdx 2)).values =
        collapse_line (rowOf (gridOf b.tiles) 2) := by rw [process_line_values]; rfl
    have h3 : (process_line b.tiles (leftIdx 3)).values =
        collapse_line (rowOf (gridOf b.tiles) 3) := by rw [process_line_values]; rfl
    rw [h0, h1, h2, h3]
    obtain ⟨a0, a1, a2, a3, hW0⟩ := length_eq_four
      (by rw [collapse_line_length]; rfl :
        (collapse_line (rowOf (gridOf b.tiles) 0)).length = 4)
    obtain ⟨b0, b1, b2, b3, hW1⟩ := length_eq_four
      (by rw [collapse_line_length]; rfl :
        (collapse_line (rowOf (gridOf b.tiles) 1)).length = 4)
    obtain ⟨c0, c1, c2, c3, hW2⟩ := length_eq_four
      (by rw [collapse_line_length]; rfl :
        (collapse_line (rowOf (gridOf b.tiles) 2)).length = 4)
    obtain ⟨d0, d1, d2, d3, hW3⟩ := length_eq_four
      (by rw [collapse_line_length]; rfl :
        (collapse_line (rowOf (gridOf b.tiles) 3)).length = 4)
    rw [hW0, hW1, hW2, hW3, assembleGrid_left_lit, apply_move_simple_left,
      hW0, hW1, hW2, hW3]
    simp only [getD4_zero, getD4_one, getD4_two, getD4_three]
  · rw [runLines_values (dirLines_disj "right") (fun _ _ _ _ => rfl)]
    have hmap : (dirLines "right").map
        (fun idxs => (process_line b.tiles idxs).values) =
        [(process_line b.tiles (rightIdx 0)).values,
         (process_line b.tiles (rightIdx 1)).values,
         (process_line b.tiles (rightIdx 2)).values,
         (process_line b.tiles (rightIdx 3)).values] := rfl
    rw [hmap]
    have h0 : (process_line b.tiles (rightIdx 0)).values =
        collapse_line (rowOf (gridOf b.tiles) 0).reverse := by
      rw [process_line_values]; rfl
    have h1 : (process_line b.tiles (rightIdx 1)).values =
        collapse_line (rowOf (gridOf b.tiles) 1).reverse := by
      rw [process_line_values]; rfl
    have h2 : (process_line b.tiles (rightIdx 2)).values =
        collapse_line (rowOf (gridOf b.tiles) 2).reverse := by
      rw [process_line_values]; rfl
    have h3 : (process_line b.tiles (rightIdx 3)).values =
        collapse_line (rowOf (gridOf b.tiles) 3).reverse := by
      rw [process_line_values]; rfl
    rw [h0, h1, h2, h3]
    obtain ⟨a0, a1, a2, a3, hW0⟩ := length_eq_four
      (by rw [collapse_line_length]; rfl :
        (collapse_line (rowOf (gridOf b.tiles) 0).reverse).length = 4)
    obtain ⟨b0, b1, b2, b3, hW1⟩ := length_eq_four
      (by rw [collapse_line_length]; rfl :
        (collapse_line (rowOf (gridOf b.tiles) 1).reverse).length = 4)
    obtain ⟨c0, c1, c2, c3, hW2⟩ := length_eq_four
      (by rw [collapse_line_length]; rfl :
        (collapse_line (rowOf (gridOf b.tiles) 2).reverse).length = 4)
    obtain ⟨d0, d1, d2, d3, hW3⟩ := length_eq_four
      (by rw [collapse_line_length]; rfl :
        (collapse_line (rowOf (gridOf b.tiles) 3).reverse).length = 4)
    rw [hW0, hW1, hW2, hW3, assembleGrid_right_lit, apply_move_simple_right,
      hW0, hW1, hW2, hW3]
    simp only [getD4_zero, getD4_one, getD4_two, getD4_three]
  · rw [runLines_values (dirLines_disj "up") (fun _ _ _ _ => rfl)]
    have hmap : (dirLines "up").map
        (fun idxs => (process_line b.tiles idxs).values) =
        [(process_line b.tiles (upIdx 0)).values,
         (process_line b.tiles (upIdx 1)).values,
         (process_line b.tiles (upIdx 2)).values,
         (process_line b.tiles (upIdx 3)).values] := rfl
    rw [hmap]
    have h0 : (process_line b.tiles (upIdx 0)).values =
        collapse_line (colOf (gridOf b.tiles) 0) := by rw [process_line_values]; rfl
    have h1 : (process_line b.tiles (upIdx 1)).values =
        collapse_line (colOf (gridOf b.tiles) 1) := by rw [process_line_values]; rfl
    have h2 : (process_line b.tiles (upIdx 2)).values =
        collapse_line (colOf (gridOf b.tiles) 2) := by rw [process_line_values]; rfl
    have h3 : (process_line b.tiles (upIdx 3)).values =
        collapse_line (colOf (gridOf b.tiles) 3) := by rw [process_line_values]; rfl
    rw [h0, h1, h2, h3]
    obtain ⟨a0, a1, a2, a3, hW0⟩ := length_eq_four
      (by rw [collapse_line_length]; rfl :
        (collapse_line (colOf (gridOf b.tiles) 0)).length = 4)
    obtain ⟨b0, b1, b2, b3, hW1⟩ := length_eq_four
      (by rw [collapse_line_length]; rfl :
        (collapse_line (colOf (gridOf b.tiles) 1)).length = 4)
    obtain ⟨c0, c1, c2, c3, hW2⟩ := length_eq_four
      (by rw [collapse_line_length]; rfl :
        (collapse_line (colOf (gridOf b.tiles) 2)).length = 4)
    obtain ⟨d0, d1, d2, d3, hW3⟩ := length_eq_four
      (by rw [collapse_line_length]; rfl :
        (collapse_line (colOf (gridOf b.tiles) 3)).length = 4)
    rw [hW0, hW1, hW2, hW3, assembleGrid_up_lit, apply_move_simple_up,
      hW0, hW1, hW2, hW3]
    simp only [getD4_zero, getD4_one, getD4_two, getD4_three]
  · rw [runLines_values (dirLines_disj "down") (fun _ _ _ _ => rfl)]
    have hmap : (dirLines "down").map
        (fun idxs => (process_line b.tiles idxs).values) =
        [(process_line b.tiles (downIdx 0)).values,
         (process_line b.tiles (downIdx 1)).values,
         (process_line b.tiles (downIdx 2)).values,
         (process_line b.tiles (downIdx 3)).values] := rfl
    rw [hmap]
    have h0 : (process_line b.tiles (downIdx 0)).values =
        collapse_line (colOf (gridOf b.tiles) 0).reverse := by
      rw [process_line_values]; rfl
    have h1 : (process_line b.tiles (downIdx 1)).values =
        collapse_line (colOf (gridOf b.tiles) 1).reverse := by
      rw [process_line_values]; rfl
    have h2 : (process_line b.tiles (downIdx 2)).values =
        collapse_line (colOf (gridOf b.tiles) 2).reverse := by
      rw [process_line_values]; rfl
    have h3 : (process_line b.tiles (downIdx 3)).values =
        collapse_line (colOf (gridOf b.tiles) 3).reverse := by
      rw [process_line_values]; rfl
    rw [h0, h1, h2, h3]
    obtain ⟨a0, a1, a2, a3, hW0⟩ := length_eq_four
      (by rw [collapse_line_length]; rfl :
        (collapse_line (colOf (gridOf b.tiles) 0).reverse).length = 4)
    obtain ⟨b0, b1, b2, b3, hW1⟩ := length_eq_four
      (by rw [collapse_line_length]; rfl :
        (collapse_line (colOf (gridOf b.tiles) 1).reverse).length = 4)
    obtain ⟨c0, c1, c2, c3, hW2⟩ := length_eq_four
      (by rw [collapse_line_length]; rfl :
        (collapse_line (colOf (gridOf b.tiles) 2).reverse).length = 4)
    obtain ⟨d0, d1, d2, d3, hW3⟩ := length_eq_four
      (by rw [collapse_line_length]; rfl :
        (collapse_line (colOf (gridOf b.tiles) 3).reverse).length = 4)
    rw [hW0, hW1, hW2, hW3, assembleGrid_down_lit, apply_move_simple_down,
      hW0, hW1, hW2, hW3]
    simp only [getD4_zero, getD4_one, getD4_two, getD4_three]

/-! ## `finalize_move` commits the pending grid -/

theorem mem_allCells (p : Nat × Nat) : p ∈ allCells ↔ p.1 < 4 ∧ p.2 < 4 := by
  obtain ⟨r, c⟩ := p
  simp only [allCells, List.mem_flatMap, List.mem_map, List.mem_range]
  constructor
  · rintro ⟨r2, hr2, c2, hc2, heq⟩
    cases heq
    exact ⟨hr2, hc2⟩
  · rintro ⟨h1, h2⟩
    exact ⟨r, h1, c, h2, rfl⟩

theorem buildGrid_getD {f : Nat → Nat → Nat} {r c : Nat} (hr : r < 4)
    (hc : c < 4) : ((buildGrid f).getD r []).getD c 0 = f r c := by
  have h1 : (buildGrid f).getD r [] = (List.range COLS).map (f r) :=
    getD_range_map _ _ hr
  rw [h1]
  exact getD_range_map _ _ hc

theorem buildGrid_congr {f g : Nat → Nat → Nat}
    (h : ∀ r, r < 4 → ∀ c, c < 4 → f r c = g r c) :
    buildGrid f = buildGrid g := by
  unfold buildGrid
  apply List.map_congr_left
  intro r hr
  apply List.map_congr_left
  intro c hc
  exact h r (List.mem_range.mp hr) c (List.mem_range.mp hc)

theorem exists_buildGrid_assembleGrid (d : String) (vals : List (List Nat)) :
    ∃ f, assembleGrid d vals = buildGrid f := by
  unfold assembleGrid
  repeat' split
  all_goals exact ⟨_, rfl⟩

theorem commitTileFor_value (newGrid : List (List Nat)) (destMap : TileMap)
    (p : Nat × Nat) :
    (commitTileFor newGrid destMap p).value = (newGrid.getD p.1 []).getD p.2 0 := by
  unfold commitTileFor
  split <;> rfl

theorem finalize_fold (newGrid : List (List Nat)) (destMap : TileMap)
    (cells : List (Nat × Nat)) (acc : TileMap) (p : Nat × Nat) :
    (cells.foldl (commitCell newGrid destMap) acc) p =
      if p ∈ cells ∧ (newGrid.getD p.1 []).getD p.2 0 ≠ 0 then
        some (commitTileFor newGrid destMap p)
      else acc p := by
  induction cells generalizing acc with
  | nil => simp
  | cons q rest ih =>
    simp only [List.foldl_cons]
    rw [ih]
    by_cases hmem : p ∈ rest ∧ (newGrid.getD p.1 []).getD p.2 0 ≠ 0
    · rw [if_pos hmem, if_pos ⟨List.mem_cons_of_mem _ hmem.1, hmem.2⟩]
    · rw [if_neg hmem]
      by_cases hpq : p = q
      · subst hpq
        by_cases hval : (newGrid.getD p.1 []).getD p.2 0 = 0
        · rw [if_neg (fun hcon => hcon.2 hval)]
          unfold commitCell
          rw [if_pos hval]
        · rw [if_pos ⟨List.mem_cons_self _ _, hval⟩]
          unfold commitCell
          rw [if_neg hval]
          simp [mapSet]
      · have hq : commitCell newGrid destMap acc q p = acc p := by
          unfold commitCell
          split
          · rfl
          · simp [mapSet, hpq]
        rw [hq]
        by_cases hm2 : p ∈ q :: rest ∧ (newGrid.getD p.1 []).getD p.2 0 ≠ 0
        · exact absurd ⟨(List.mem_cons.mp hm2.1).resolve_left hpq, hm2.2⟩ hmem
        · rw [if_neg hm2]

theorem finalize_commits {b : Board} {d : String} (h : (b.move d).2 = true) :
    gridOf ((b.move d).1.finalize_move).tiles = b.moveNewGrid d := by
  obtain ⟨hp1, hp2⟩ := move_pending_true h
  unfold Board.finalize_move
  rw [hp1, hp2]
  obtain ⟨f, hf⟩ := exists_buildGrid_assembleGrid d
    (runLines b.tiles (fun _ => none) (dirLines d)).2.2
  have hng : b.moveNewGrid d = buildGrid f := hf
  rw [hng]
  show buildGrid (valueAt (allCells.foldl (commitCell (buildGrid f)
    (runLines b.tiles (fun x => none) (dirLines d)).2.1) (fun _ => none))) =
      buildGrid f
  apply buildGrid_congr
  intro r hr c hc
  unfold valueAt
  rw [finalize_fold]
  by_cases hval : (((buildGrid f).getD r []).getD c 0) = 0
  · rw [if_neg (fun hcon => hcon.2 hval)]
    rw [buildGrid_getD hr hc] at hval
    exact hval.symm
  · rw [if_pos ⟨(mem_allCells (r, c)).mpr ⟨hr, hc⟩, hval⟩]
    show (commitTileFor _ _ _).value = f r c
    rw [commitTileFor_value]
    exact buildGrid_getD hr hc

/-! ## Claim C10 -/

/-- C10: for every board and every direction, the pending grid computed by
the tile-based `Board.move` equals the grid returned by the value-based
`Board._apply_move_simple` applied to the grid of pre-move tile values. -/
theorem C10_move_refines_apply_move_simple (b : Board) (d : String)
    (hd : d ∈ (["left", "right", "up", "down"] : List String)) :
    b.moveNewGrid d = apply_move_simple (gridOf b.tiles) d :=
  moveNewGrid_eq_simple b d hd

/-- Witness for C10 at a concrete board and direction. -/
theorem C10_witness :
    ("right" ∈ (["left", "right", "up", "down"] : List String)) ∧
      board1.moveNewGrid "right" = apply_move_simple (gridOf board1.tiles) "right" :=
  ⟨by decide, C10_move_refines_apply_move_simple board1 "right" (by decide)⟩

/-! ## Claim C4 -/

/-- C4: after `move(direction)` returns `true` but before `finalize_move()`,
every tile's `value`, `row` and `col` are unchanged from their pre-move
values; `finalize_move()` is what commits the pending grid. -/
theorem C4_two_phase_move (b : Board) (d : String) (h : (b.move d).2 = true) :
    (∀ p t, b.tiles p = some t → ∃ t2, (b.move d).1.tiles p = some t2 ∧
      t2.value = t.value ∧ t2.row = t.row ∧ t2.col = t.col) ∧
      gridOf ((b.move d).1.finalize_move).tiles = b.moveNewGrid d := by
  refine ⟨?_, finalize_commits h⟩
  intro p t ht
  have hcore : (((b.move d).1.tiles) p).map Tile.core = (b.tiles p).map Tile.core := by
    rw [move_tiles_eq]
    exact runLines_core _ _ _ _
  rw [ht] at hcore
  rcases h2 : ((b.move d).1.tiles) p with _ | t2
  · rw [h2] at hcore
    simp at hcore
  · rw [h2] at hcore
    simp only [Option.map_some', Option.some.injEq, Tile.core,
      Prod.mk.injEq] at hcore
    exact ⟨t2, rfl, hcore.1, hcore.2.1, hcore.2.2⟩

/-- Witness for C4: a concrete move whose tile at `(0, 0)` keeps
value/row/col until finalization. -/
theorem C4_witness :
    (board1.move "right").2 = true ∧
      (∃ t2, (board1.move "right").1.tiles (0, 0) = some t2 ∧
        t2.value = 2 ∧ t2.row = 0 ∧ t2.col = 0) := by
  refine ⟨by decide, ?_⟩
  obtain ⟨t2, h1, h2, h3, h4⟩ :=
    (C4_two_phase_move board1 "right" (by decide)).1 (0, 0) (Tile.new 2 0 0) rfl
  exact ⟨t2, h1, h2.trans rfl, h3.trans rfl, h4.trans rfl⟩

/-! ## Claim C9 -/

/-- C9 counterexample: a successful un-finalized `move("right")` followed by
a failed `move("left")` leaves the stale pending grid in place, and
`finalize_move()` then commits the abandoned right-move grid (the claim says
this must never happen when the next `move()` returns `false`). -/
theorem C9_counterexample :
    (board1.move "right").2 = true ∧
      (board1.move "right").1.pendingNewGrid =
        some [[0,0,0,2],[0,0,0,0],[0,0,0,0],[0,0,0,0]] ∧
      ((board1.move "right").1.move "left").2 = false ∧
      ((board1.move "right").1.move "left").1.pendingNewGrid =
        some [[0,0,0,2],[0,0,0,0],[0,0,0,0],[0,0,0,0]] ∧
      gridOf ((((board1.move "right").1.move "left").1).finalize_move).tiles =
        [[0,0,0,2],[0,0,0,0],[0,0,0,0],[0,0,0,0]] ∧
      gridOf ((board1.move "right").1.move "left").1.tiles =
        [[2,0,0,0],[0,0,0,0],[0,0,0,0],[0,0,0,0]] := by
  refine ⟨by decide, ?_, by decide, ?_, ?_, by decide⟩ <;> decide

/-- C9 amended: a next `move()` that returns `true` replaces the pending
state with its own computed grid, so a subsequent `finalize_move()` commits
the new move's grid, not the abandoned one; when the next `move()` returns
`false` the stale pending state of the earlier move is retained. -/
theorem C9_pending_discard_on_success (b : Board) (d2 : String)
    (h : (b.move d2).2 = true) :
    (b.move d2).1.pendingNewGrid = some (b.moveNewGrid d2) ∧
      gridOf ((b.move d2).1.finalize_move).tiles = b.moveNewGrid d2 :=
  ⟨(move_pending_true h).1, finalize_commits h⟩

/-- Witness for the amended C9 at a concrete board. -/
theorem C9_witness :
    (board1.move "right").2 = true ∧
      (board1.move "right").1.pendingNewGrid =
        some (board1.moveNewGrid "right") ∧
      gridOf ((board1.move "right").1.finalize_move).tiles =
        board1.moveNewGrid "right" := by
  refine ⟨by decide, ?_, ?_⟩
  · exact (C9_pending_discard_on_success board1 "right" (by decide)).1
  · exact (C9_pending_discard_on_success board1 "right" (by decide)).2

/-! ## Claim C3 -/

set_option maxHeartbeats 1600000 in
theorem apply_move_simple_sum (m : TileMap) (d : String)
    (hd : d ∈ (["left", "right", "up", "down"] : List String)) :
    gridSum (apply_move_simple (gridOf m) d) = gridSum (gridOf m) := by
  simp only [List.mem_cons, List.not_mem_nil, or_false] at hd
  rcases hd with rfl | rfl | rfl | rfl
  · rw [apply_move_simple_left]
    obtain ⟨a0, a1, a2, a3, hW0⟩ := length_eq_four
      (by rw [collapse_line_length]; rfl :
        (collapse_line (rowOf (gridOf m) 0)).length = 4)
    obtain ⟨b0, b1, b2, b3, hW1⟩ := length_eq_four
      (by rw [collapse_line_length]; rfl :
        (collapse_line (rowOf (gridOf m) 1)).length = 4)
    obtain ⟨c0, c1, c2, c3, hW2⟩ := length_eq_four
      (by rw [collapse_line_length]; rfl :
        (collapse_line (rowOf (gridOf m) 2)).length = 4)
    obtain ⟨d0, d1, d2, d3, hW3⟩ := length_eq_four
      (by rw [collapse_line_length]; rfl :
        (collapse_line (rowOf (gridOf m) 3)).length = 4)
    have hs0 := collapse_line_sum (rowOf (gridOf m) 0)
    have hs1 := collapse_line_sum (rowOf (gridOf m) 1)
    have hs2 := collapse_line_sum (rowOf (gridOf m) 2)
    have hs3 := collapse_line_sum (rowOf (gridOf m) 3)
    rw [hW0, gridOf_expand, rowOf_lit_zero] at hs0
    rw [hW1, gridOf_expand, rowOf_lit_one] at hs1
    rw [hW2, gridOf_expand, rowOf_lit_two] at hs2
    rw [hW3, gridOf_expand, rowOf_lit_three] at hs3
    rw [hW0, hW1, hW2, hW3, gridOf_expand]
    simp only [gridSum, List.map_cons, List.map_nil, List.sum_cons,
      List.sum_nil, getD4_zero, getD4_one, getD4_two,
      getD4_three] at hs0 hs1 hs2 hs3 ⊢
    omega
  · rw [apply_move_simple_right]
    obtain ⟨a0, a1, a2, a3, hW0⟩ := length_eq_four
      (by rw [collapse_line_length]; rfl :
        (collapse_line (rowOf (gridOf m) 0).reverse).length = 4)
    obtain ⟨b0, b1, b2, b3, hW1⟩ := length_eq_four
      (by rw [collapse_line_length]; rfl :
        (collapse_line (rowOf (gridOf m) 1).reverse).length = 4)
    obtain ⟨c0, c1, c2, c3, hW2⟩ := length_eq_four
      (by rw [collapse_line_length]; rfl :
        (collapse_line (rowOf (gridOf m) 2).reverse).length = 4)
    obtain ⟨d0, d1, d2, d3, hW3⟩ := length_eq_four
      (by rw [collapse_line_length]; rfl :
        (collapse_line (rowOf (gridOf m) 3).reverse).length = 4)
    have hs0 := collapse_line_sum (rowOf (gridOf m) 0).reverse
    have hs1 := collapse_line_sum (rowOf (gridOf m) 1).reverse
    have hs2 := collapse_line_sum (rowOf (gridOf m) 2).reverse
    have hs3 := collapse_line_sum (rowOf (gridOf m) 3).reverse
    rw [hW0, List.sum_reverse, gridOf_expand, rowOf_lit_zero] at hs0
    rw [hW1, List.sum_reverse, gridOf_expand, rowOf_lit_one] at hs1
    rw [hW2, List.sum_reverse, gridOf_expand, rowOf_lit_two] at hs2
    rw [hW3, List.sum_reverse, gridOf_expand, rowOf_lit_three] at hs3
    rw [hW0, hW1, hW2, hW3, gridOf_expand]
    simp only [gridSum, List.map_cons, List.map_nil, List.sum_cons,
      List.sum_nil, getD4_zero, getD4_one, getD4_two,
      getD4_three] at hs0 hs1 hs2 hs3 ⊢
    omega
  · rw [apply_move_simple_up]
    obtain ⟨a0, a1, a2, a3, hW0⟩ := length_eq_four
      (by rw [collapse_line_length]; rfl :
        (collapse_line (colOf (gridOf m) 0)).length = 4)
    obtain ⟨b0, b1, b2, b3, hW1⟩ := length_eq_four
      (by rw [collapse_line_length]; rfl :
        (collapse_line (colOf (gridOf m) 1)).length = 4)
    obtain ⟨c0, c1, c2, c3, hW2⟩ := length_eq_four
      (by rw [collapse_line_length]; rfl :
        (collapse_line (colOf (gridOf m) 2)).length = 4)
    obtain ⟨d0, d1, d2, d3, hW3⟩ := length_eq_four
      (by rw [collapse_line_length]; rfl :
        (collapse_line (colOf (gridOf m) 3)).length = 4)
    have hs0 := collapse_line_sum (colOf (gridOf m) 0)
    have hs1 := collapse_line_sum (colOf (gridOf m) 1)
    have hs2 := collapse_line_sum (colOf (gridOf m) 2)
    have hs3 := collapse_line_sum (colOf (gridOf m) 3)
    rw [hW0, gridOf_expand, colOf_lit_zero] at hs0
    rw [hW1, gridOf_expand, colOf_lit_one] at hs1
    rw [hW2, gridOf_expand, colOf_lit_two] at hs2
    rw [hW3, gridOf_expand, colOf_lit_three] at hs3
    rw [hW0, hW1, hW2, hW3, gridOf_expand]
    simp only [gridSum, List.map_cons, List.map_nil, List.sum_cons,
      List.sum_nil, getD4_zero, getD4_one, getD4_two,
      getD4_three] at hs0 hs1 hs2 hs3 ⊢
    omega
  · rw [apply_move_simple_down]
    obtain ⟨a0, a1, a2, a3, hW0⟩ := length_eq_four
      (by rw [collapse_line_length]; rfl :
        (collapse_line (colOf (gridOf m) 0).reverse).length = 4)
    obtain ⟨b0, b1, b2, b3, hW1⟩ := length_eq_four
      (by rw [collapse_line_length]; rfl :
        (collapse_line (colOf (gridOf m) 1).reverse).length = 4)
    obtain ⟨c0, c1, c2, c3, hW2⟩ := length_eq_four
      (by rw [collapse_line_length]; rfl :
        (collapse_line (colOf (gridOf m) 2).reverse).length = 4)
    obtain ⟨d0, d1, d2, d3, hW3⟩ := length_eq_four
      (by rw [collapse_line_length]; rfl :
        (collapse_line (colOf (gridOf m) 3).reverse).length = 4)
    have hs0 := collapse_line_sum (colOf (gridOf m) 0).reverse
    have hs1 := collapse_line_sum (colOf (gridOf m) 1).reverse
    have hs2 := collapse_line_sum (colOf (gridOf m) 2).reverse
    have hs3 := collapse_line_sum (colOf (gridOf m) 3).reverse
    rw [hW0, List.sum_reverse, gridOf_expand, colOf_lit_zero] at hs0
    rw [hW1, List.sum_reverse, gridOf_expand, colOf_lit_one] at hs1
    rw [hW2, List.sum_reverse, gridOf_expand, colOf_lit_two] at hs2
    rw [hW3, List.sum_reverse, gridOf_expand, colOf_lit_three] at hs3
    rw [hW0, hW1, hW2, hW3, gridOf_expand]
    simp only [gridSum, List.map_cons, List.map_nil, List.sum_cons,
      List.sum_nil, getD4_zero, getD4_one, getD4_two,
      getD4_three] at hs0 hs1 hs2 hs3 ⊢
    omega

/-- C3: for every move that changes the grid, the sum of all tile values on
the board after the move (before any spawn) equals the sum before the move;
each line collapse (and hence each merge of two `v` tiles into one `2v`
tile) preserves the line sum exactly. -/
theorem C3_value_conservation (b : Board) (d : String)
    (hd : d ∈ (["left", "right", "up", "down"] : List String))
    (h : (b.move d).2 = true) :
    gridSum (gridOf ((b.move d).1.finalize_move).tiles) =
        gridSum (gridOf b.tiles) ∧
      ∀ l : List Nat, (collapse_line l).sum = l.sum := by
  refine ⟨?_, collapse_line_sum⟩
  rw [finalize_commits h, moveNewGrid_eq_simple b d hd,
    apply_move_simple_sum b.tiles d hd]

/-- Witness for C3 at a concrete changing move. -/
theorem C3_witness :
    ("left" ∈ (["left", "right", "up", "down"] : List String)) ∧
      (board22.move "left").2 = true ∧
      gridSum (gridOf ((board22.move "left").1.finalize_move).tiles) =
        gridSum (gridOf board22.tiles) := by
  refine ⟨by decide, by decide, ?_⟩
  exact (C3_value_conservation board22 "left" (by decide) (by decide)).1

/-! ## Claim C2 -/

/-- C2: each line collapse partitions the line's tiles into singleton groups
and merged pairs of adjacent equal value (a merge consumes exactly two tiles
and its product is emitted once, never re-consumed in the same move); in
particular `[v, v, v, 0]` collapses to `[2v, v, 0, 0]`. -/
theorem C2_at_most_one_merge (v : Nat) (hv : v ≠ 0) :
    collapse_line [v, v, v, 0] = [v * 2, v, 0, 0] ∧
      ∀ es : List ((Nat × Nat) × Tile),
        (collapseGroups es).flatMap groupEntries = es ∧
          ∀ g ∈ collapseGroups es,
            (g.2.2 = [] ∧ g.1 = g.2.1.2.value) ∨
              (∃ f, g.2.2 = [f] ∧ f.2.value = g.2.1.2.value ∧
                g.1 = g.2.1.2.value * 2) := by
  refine ⟨?_, fun es => ⟨collapseGroups_flat es, collapseGroups_shape es⟩⟩
  show mergeValues ([v, v, v, 0].filter (· ≠ 0)) ++
      List.replicate
        ([v, v, v, 0].length -
          (mergeValues ([v, v, v, 0].filter (· ≠ 0))).length) 0 =
    [v * 2, v, 0, 0]
  have hfil : [v, v, v, 0].filter (· ≠ 0) = [v, v, v] := by
    simp [List.filter_cons, hv]
  rw [hfil, mergeValues_cons_eq rfl]
  rfl

/-- Witness for C2 at `v = 2`. -/
theorem C2_witness :
    (2 : Nat) ≠ 0 ∧ collapse_line [2, 2, 2, 0] = [2 * 2, 2, 0, 0] :=
  ⟨by decide, (C2_at_most_one_merge 2 (by decide)).1⟩

/-! ## Claim C5 -/

theorem tileCount_le (m : TileMap) : tileCount m ≤ 16 :=
  le_trans (List.length_filter_le _ _) (le_of_eq rfl)

theorem tileCount_eq_16_iff (m : TileMap) :
    tileCount m = 16 ↔ ∀ p ∈ allCells, (m p).isSome := by
  constructor
  · intro h
    have hfe : allCells.filter (fun p => (m p).isSome) = allCells :=
      List.Sublist.eq_of_length (List.filter_sublist _) h
    exact List.filter_eq_self.mp hfe
  · intro h
    show (allCells.filter (fun p => (m p).isSome)).length = 16
    rw [List.filter_eq_self.mpr h]
    rfl

/-- C5: `is_game_over()` returns `true` iff the grid has no empty cell and
no two forward-adjacent cells (offsets `(r+1, c)` and `(r, c+1)`) share the
same value. -/
theorem C5_game_over_iff (b : Board) :
    b.is_game_over = true ↔
      ((∀ r, r < 4 → ∀ c, c < 4 → (b.tiles (r, c)).isSome) ∧
        ∀ r, r < 4 → ∀ c, c < 4 →
          (r + 1 < 4 → valueAt b.tiles (r + 1) c ≠ valueAt b.tiles r c) ∧
          (c + 1 < 4 → valueAt b.tiles r (c + 1) ≠ valueAt b.tiles r c)) := by
  have hfull_iff : tileCount b.tiles = 16 ↔
      ∀ r, r < 4 → ∀ c, c < 4 → (b.tiles (r, c)).isSome := by
    rw [tileCount_eq_16_iff]
    constructor
    · intro h r hr c hc
      exact h (r, c) ((mem_allCells (r, c)).mpr ⟨hr, hc⟩)
    · intro h p hp
      obtain ⟨h1, h2⟩ := (mem_allCells p).mp hp
      have := h p.1 h1 p.2 h2
      rwa [Prod.mk.eta] at this
  have hadj_iff : (hasAdjEqual b.tiles = false) ↔
      ∀ r, r < 4 → ∀ c, c < 4 →
        (r + 1 < 4 → valueAt b.tiles (r + 1) c ≠ valueAt b.tiles r c) ∧
        (c + 1 < 4 → valueAt b.tiles r (c + 1) ≠ valueAt b.tiles r c) := by
    rw [Bool.eq_false_iff]
    unfold hasAdjEqual
    simp only [ne_eq, List.any_eq_true, List.mem_range, List.any_cons,
      List.any_nil, Bool.or_eq_true, Bool.and_eq_true, decide_eq_true_eq,
      Bool.false_eq_true, or_false, Nat.add_zero, ROWS, COLS]
    push_neg
    constructor
    · intro h r hr c hc
      obtain ⟨hone, htwo⟩ := h r hr c hc
      refine ⟨fun hr1 => ?_, fun hc1 => ?_⟩
      · exact htwo ⟨hr1, hc⟩
      · exact hone ⟨hr, hc1⟩
    · intro h r hr c hc
      obtain ⟨hone, htwo⟩ := h r hr c hc
      exact ⟨fun hcon => htwo hcon.2, fun hcon => hone hcon.1⟩
  unfold Board.is_game_over
  split
  next hlt =>
    simp only [Bool.false_eq_true, false_iff]
    rintro ⟨hfull, -⟩
    have h16 := hfull_iff.mpr hfull
    rw [h16] at hlt
    simp [ROWS, COLS] at hlt
  next hge =>
    have hle := tileCount_le b.tiles
    have h16 : tileCount b.tiles = 16 := by
      simp only [ROWS, COLS, Nat.not_lt] at hge
      omega
    rw [Bool.not_eq_true', hadj_iff]
    constructor
    · intro h
      exact ⟨hfull_iff.mp h16, h⟩
    · rintro ⟨-, h⟩
      exact h

/-- Witness for C5: a concrete full board with no adjacent equal pair is
game over. -/
theorem C5_witness : boardFull.is_game_over = true := by
  rw [C5_game_over_iff]
  constructor <;> decide

/-! ## Claim C6 -/

theorem mapSet_ne {m : TileMap} {p q : Nat × Nat} {t : Tile}
    (h : ¬q = p) : mapSet m p t q = m q := by
  simp [mapSet, h]

/-- C6: `spawn_random` only ever writes to a currently empty cell (every
cell it changes was empty before), and when zero empty cells remain it is a
silent no-op leaving the map unchanged. -/
theorem C6_spawn_respects_occupancy (m : TileMap) (pick randVal : Nat)
    (value : Option Nat) :
    (emptyCells m = [] → spawn_random m pick randVal value = m) ∧
      ∀ p, spawn_random m pick randVal value p ≠ m p →
        p ∈ emptyCells m ∧ m p = none := by
  constructor
  · intro h
    unfold spawn_random
    rw [h]
    rfl
  · intro p hne
    unfold spawn_random at hne
    split at hne
    next hemp => exact absurd rfl hne
    next hemp =>
      have hlen : 0 < (emptyCells m).length := by
        rcases hl : emptyCells m with _ | ⟨q, tl⟩
        · rw [hl] at hemp
          exact absurd rfl hemp
        · simp
      by_cases hp : p = (emptyCells m).getD (pick % (emptyCells m).length) (0, 0)
      · have hidx : pick % (emptyCells m).length < (emptyCells m).length :=
          Nat.mod_lt _ hlen
        have hmem : (emptyCells m).getD (pick % (emptyCells m).length) (0, 0) ∈
            emptyCells m := by
          rw [List.getD_eq_getElem _ _ hidx]
          exact List.getElem_mem hidx
        rw [← hp] at hmem
        refine ⟨hmem, ?_⟩
        have hnone := (List.mem_filter.mp hmem).2
        simpa [Option.isNone_iff_eq_none] using hnone
      · exact absurd (mapSet_ne hp) hne

/-- Witness for C6: the full board makes `spawn_random` a no-op. -/
theorem C6_witness :
    emptyCells boardFull.tiles = [] ∧
      spawn_random boardFull.tiles 0 2 none = boardFull.tiles := by
  have h : emptyCells boardFull.tiles = [] := by decide
  exact ⟨h, (C6_spawn_respects_occupancy boardFull.tiles 0 2 none).1 h⟩

/-! ## Claim C7 -/

theorem valueAt_tilesFromGrid (g : List (List Nat)) (r c : Nat) :
    valueAt (tilesFromGrid g) r c = (g.getD r []).getD c 0 := by
  unfold valueAt tilesFromGrid
  dsimp only
  by_cases h0 : (g.getD r []).getD c 0 = 0
  · rw [if_pos h0]
    exact h0.symm
  · rw [if_neg h0]
    rfl

theorem gridOf_tilesFromGrid_gridOf (m : TileMap) :
    gridOf (tilesFromGrid (gridOf m)) = gridOf m := by
  show buildGrid _ = buildGrid _
  apply buildGrid_congr
  intro r hr c hc
  rw [valueAt_tilesFromGrid]
  exact buildGrid_getD hr hc

/-- C7: for any sequence move → finalize → undo (a committed move), the grid
and score after `undo()` equal the grid and score immediately before the
move, and `undo()` reports that a prior state existed; with no history,
`undo()` is a no-op returning `false`. -/
theorem C7_undo_round_trip (g : Game) (d : String) :
    ((g.do_move d).2 = true →
      ((g.do_move d).1.undo.2 = true ∧
        gridOf (g.do_move d).1.undo.1.board.tiles = gridOf g.board.tiles ∧
        (g.do_move d).1.undo.1.score = g.score)) ∧
      (g.history = [] → g.undo = (g, false)) := by
  constructor
  · intro h
    unfold Game.do_move at h ⊢
    dsimp only at h ⊢
    split at h
    next hc =>
      rw [if_pos hc]
      refine ⟨rfl, ?_, rfl⟩
      show gridOf (boardOfGrid (gridOf g.board.tiles)).tiles =
        gridOf g.board.tiles
      exact gridOf_tilesFromGrid_gridOf g.board.tiles
    next hc => exact absurd h (by simp)
  · intro h
    unfold Game.undo
    rw [h]

/-- Witness for C7 at a concrete committed move. -/
theorem C7_witness :
    (game22.do_move "left").2 = true ∧
      (game22.do_move "left").1.undo.2 = true ∧
      gridOf (game22.do_move "left").1.undo.1.board.tiles =
        gridOf game22.board.tiles ∧
      (game22.do_move "left").1.undo.1.score = game22.score := by
  have h : (game22.do_move "left").2 = true := by decide
  obtain ⟨h1, h2, h3⟩ := (C7_undo_round_trip game22 "left").1 h
  exact ⟨h, h1, h2, h3⟩

/-! ## Claim C8 -/

/-- C8: the score is monotonically non-decreasing across committed moves
(each move adds the sum of its merge results), and from starting grid
`[2,2,0,0]` a left move returns `true`, produces grid `[4,0,0,0]` and
increases the finalized score by exactly 4. -/
theorem C8_score_monotone_and_delta (g : Game) (d : String) :
    g.score ≤ (g.do_move d).1.score ∧
      ((game22.do_move "left").2 = true ∧
        gridOf (game22.do_move "left").1.board.tiles =
          [[4,0,0,0],[0,0,0,0],[0,0,0,0],[0,0,0,0]] ∧
        (game22.do_move "left").1.score = game22.score + 4) := by
  refine ⟨?_, by decide, by decide, by decide⟩
  unfold Game.do_move
  dsimp only
  split
  · exact Nat.le_add_right _ _
  · exact Nat.le_refl _

/-! ## Claim C1 witness -/

/-- Witness for C1 at a concrete board and direction. -/
theorem C1_witness :
    ("right" ∈ (["left", "right", "up", "down"] : List String)) ∧
      ((board1.move "right").2 = true ↔
        board1.moveNewGrid "right" ≠ gridOf board1.tiles) :=
  ⟨by decide, (C1_move_true_iff_grid_changed board1 "right" (by decide)).1⟩

end G2048
